import Mathlib

/-!
Verification of the selective-publisher plugin's core logic: the criterion
evaluation engine (`src/criterion.ts`) and the publishing/diff service
(`src/publishing-service.ts`), embedded shallowly in Lean.

The host regular-expression engine (the JavaScript `RegExp` builtin) and the
glob matcher (the `picomatch` library) are external to the repository; they
are abstracted as engine records holding a validity test (compilation
succeeds or throws) and a match function, and are instantiated with concrete
model engines, faithful on the patterns used here, for concrete evaluations.
-/

deriving instance DecidableEq for Except

namespace SelectivePublisher

/-- `CriterionType`-indexed text match modes (criterion.ts, `TextMatchMode`). -/
inductive TextMatchMode where
  | Contains
  | Regex
  | Glob
deriving Repr, DecidableEq

/-- Tag match modes (criterion.ts, `TagMatchMode`). -/
inductive TagMatchMode where
  | Equals
  | StartsWith
  | Includes
deriving Repr, DecidableEq

/-- The file identity data the criteria read: Obsidian's `TFile.basename`
and `TFile.path`. -/
structure TFile where
  basename : String
  path : String
deriving Repr, DecidableEq

/-- A frontmatter value as delivered by Obsidian's metadata cache: a
dynamically typed YAML value.  `null` is a value (JavaScript `null`);
absence of a key is modelled by `Option.none` at the lookup site
(JavaScript `undefined`). -/
inductive FmValue where
  | str (s : String)
  | num (n : Int)
  | bool (b : Bool)
  | null
  | list (vs : List FmValue)
deriving Repr

/-- Obsidian's `CachedMetadata`, restricted to the part the criteria read:
the frontmatter key-value map (`none` when the file has no frontmatter). -/
structure CachedMetadata where
  frontmatter : Option (List (String × FmValue))
deriving Repr

/-- The lookup `metadata?.frontmatter?.[key]`: `none` models JavaScript
`undefined`. -/
def lookupFrontmatter (metadata : CachedMetadata) (key : String) : Option FmValue :=
  match metadata.frontmatter with
  | none => none
  | some m => m.lookup key

/-! Character-list implementations of the JavaScript string primitives the
source uses, written so that they evaluate inside the kernel. -/

/-- Whether the second list occurs at the head of the first. -/
def listStartsWith : List Char → List Char → Bool
  | _, [] => true
  | [], _ :: _ => false
  | c :: cs, d :: ds => c == d && listStartsWith cs ds

/-- Whether the second list occurs anywhere inside the first. -/
def listContainsSub : List Char → List Char → Bool
  | [], sub => sub.isEmpty
  | c :: cs, sub => listStartsWith (c :: cs) sub || listContainsSub cs sub

/-- JavaScript `s.startsWith(p)`. -/
def strStartsWith (s p : String) : Bool :=
  listStartsWith s.data p.data

/-- JavaScript `s.endsWith(p)`. -/
def strEndsWith (s p : String) : Bool :=
  listStartsWith s.data.reverse p.data.reverse

/-- JavaScript `s.toLowerCase()` (ASCII case mapping suffices here). -/
def strToLower (s : String) : String :=
  String.mk (s.data.map Char.toLower)

/-- JavaScript `s.trim()`. -/
def strTrim (s : String) : String :=
  String.mk (((s.data.dropWhile Char.isWhitespace).reverse.dropWhile Char.isWhitespace).reverse)

/-- JavaScript `s.slice(n)` for a nonnegative `n`. -/
def strDrop (s : String) (n : Nat) : String :=
  String.mk (s.data.drop n)

/-- The last `n` characters removed. -/
def strDropRight (s : String) (n : Nat) : String :=
  String.mk (s.data.take (s.data.length - n))

/-- Splitting a character list on a separator character; always at least one
(possibly empty) group, like JavaScript `split`. -/
def splitOnChar (sep : Char) (cs : List Char) : List (List Char) :=
  cs.foldr (fun c acc =>
    match acc with
    | [] => [[c]]
    | grp :: rest => if c == sep then [] :: grp :: rest else (c :: grp) :: rest) [[]]

/-- JavaScript `s.split(sep)` for a one-character separator. -/
def strSplit (s : String) (sep : Char) : List String :=
  (splitOnChar sep s.data).map String.mk

/-- Minimal JSON string escaping used by `JSON.stringify` on the values
appearing here. -/
def jsonEscape (s : String) : String :=
  s.data.foldl (fun acc c =>
    acc ++ (if c = '"' then "\\\"" else if c = '\\' then "\\\\" else String.mk [c])) ""

mutual

/-- Model of `JSON.stringify` on the frontmatter value union. -/
def jsonStringify : FmValue → String
  | .str s => "\"" ++ jsonEscape s ++ "\""
  | .num n => toString n
  | .bool b => if b then "true" else "false"
  | .null => "null"
  | .list vs => "[" ++ jsonStringifyList vs ++ "]"

/-- Comma-joined `JSON.stringify` of array elements. -/
def jsonStringifyList : List FmValue → String
  | [] => ""
  | [v] => jsonStringify v
  | v :: rest => jsonStringify v ++ "," ++ jsonStringifyList rest

end

/-- criterion.ts `stringifyValue`: strings, numbers and booleans go through
`String()`; anything else (here: `null` and arrays) through `JSON.stringify`. -/
def stringifyValue : FmValue → String
  | .str s => s
  | .num n => toString n
  | .bool b => if b then "true" else "false"
  | v => jsonStringify v

/-- JavaScript truthiness of a frontmatter value (`undefined` handled by the
caller). -/
def truthy : FmValue → Bool
  | .str s => s ≠ ""
  | .num n => n ≠ 0
  | .bool b => b
  | .null => false
  | .list _ => true

/-- JavaScript `String.prototype.includes`. -/
def strIncludes (s sub : String) : Bool :=
  listContainsSub s.data sub.data

/-- Abstract interface to the host regular-expression engine (the JavaScript
`RegExp` builtin with the `'i'` flag): `valid pattern` says whether
`new RegExp(pattern, 'i')` compiles (otherwise the constructor throws a
`SyntaxError`), and `test pattern input` is the result of
`new RegExp(pattern, 'i').test(input)` for a valid pattern. -/
structure RegexEngine where
  valid : String → Bool
  test : String → String → Bool

/-- Abstract interface to the `picomatch` glob compiler called with options
`\x7b dot: true, contains: true \x7d`: `valid glob` says whether
`picomatch(glob, GLOB_OPTIONS)` compiles without throwing, and
`test glob input` is the resulting matcher applied to `input`. -/
structure GlobEngine where
  valid : String → Bool
  test : String → String → Bool

/-- criterion.ts `safeRegexTest`: compile the pattern fresh; a compile error
is caught and yields `false`. -/
def safeRegexTest (eng : RegexEngine) (pattern input : String) : Bool :=
  if eng.valid pattern then eng.test pattern input else false

/-- criterion.ts `GlobLineInfo`. -/
structure GlobLineInfo where
  negated : Bool
  glob : String
deriving Repr, DecidableEq

/-- criterion.ts `parseGlobLine`: trim; blank lines and `#` comments give an
empty glob; a leading `!` marks negation and is stripped. -/
def parseGlobLine (line : String) : GlobLineInfo :=
  let trimmed := strTrim line
  if trimmed = "" || strStartsWith trimmed "#" then { negated := false, glob := "" }
  else
    let negated := strStartsWith trimmed "!"
    { negated := negated, glob := if negated then strDrop trimmed 1 else trimmed }

/-- criterion.ts `matchesGlobPatterns`: split on newlines, skip empty globs,
overwrite a running `matched` flag on every matching line (`!` lines write
`false`), skip lines whose glob fails to compile. -/
def matchesGlobPatterns (geng : GlobEngine) (multiLinePattern input : String) : Bool :=
  (strSplit multiLinePattern '\n').foldl (fun matched rawLine =>
    let info := parseGlobLine rawLine
    if info.glob.length = 0 then matched
    else if geng.valid info.glob then
      if geng.test info.glob input then !info.negated else matched
    else matched) false

/-- JavaScript `\w` plus hyphen: the character class `[\w-]` of the inline
tag regex `/#([\w-]+)/g` in criterion.ts `extractTagsFromContent`. -/
def wordOrHyphen (c : Char) : Bool :=
  c.isAlphanum || c = '_' || c = '-'

/-- One character of the left-to-right scan realizing `/#([\w-]+)/g`: the
state carries the run of word characters after the most recent `#` (if any)
and the matches found so far. -/
def tagScanStep (st : Option (List Char) × List String) (c : Char) :
    Option (List Char) × List String :=
  match st with
  | (some run, found) =>
    if wordOrHyphen c then (some (run ++ [c]), found)
    else
      let found := if run.isEmpty then found else found ++ [String.mk run]
      if c = '#' then (some [], found) else (none, found)
  | (none, found) => if c = '#' then (some [], found) else (none, found)

/-- All matches of `/#([\w-]+)/g` on one line, captured groups only, in
document order. -/
def lineTags (line : String) : List String :=
  match line.data.foldl tagScanStep (none, []) with
  | (some run, found) => if run.isEmpty then found else found ++ [String.mk run]
  | (none, found) => found

/-- Adding an element to a JavaScript `Set` iterated in insertion order. -/
def insertUnique (acc : List String) (x : String) : List String :=
  if acc.contains x then acc else acc ++ [x]

/-- criterion.ts `extractTagsFromContent`: scan lines, toggling an
inside-code-block flag at lines whose trimmed form starts with three
backticks, skipping `%%` comment lines, and collecting all `#tag` tokens of
the remaining lines into a set. -/
def extractTagsFromContent (content : String) : List String :=
  ((strSplit content '\n').foldl (fun st line =>
    let (inCodeBlock, tags) := st
    if strStartsWith (strTrim line) "```" then (!inCodeBlock, tags)
    else if inCodeBlock then st
    else if strStartsWith (strTrim line) "%%" then st
    else (inCodeBlock, (lineTags line).foldl insertUnique tags)) (false, ([] : List String))).2

/-- criterion.ts `getAllTagsFromFile`: frontmatter `tags` field (an array is
mapped through `stringifyValue`; a truthy scalar becomes a singleton; a falsy
or absent value contributes nothing) unioned with the inline tags of the
body, deduplicated in insertion order. -/
def getAllTagsFromFile (_file : TFile) (content : String) (metadata : CachedMetadata) :
    List String :=
  let tagsFromFrontmatter : List String :=
    match lookupFrontmatter metadata "tags" with
    | some (.list vs) => vs.map stringifyValue
    | some v => if truthy v then [stringifyValue v] else []
    | none => []
  let tagsFromContent := extractTagsFromContent content
  (tagsFromFrontmatter ++ tagsFromContent).foldl insertUnique []

/-- The criterion tree (criterion.ts): one constructor per concrete
`Criterion` subclass, holding exactly the instance fields the subclass
declares. -/
inductive Criterion where
  | tag (tag : String) (matchMode : TagMatchMode)
  | frontmatter (key : String) (value : String)
  | content (regex : String)
  | title (pattern : String) (matchMode : TextMatchMode)
  | path (pattern : String) (matchMode : TextMatchMode)
  | and (criteria : List Criterion)
  | or (criteria : List Criterion)
  | not (criterion : Criterion)
deriving Repr

/-- The `TagCriterion` constructor: lowercases the configured tag and stores
the match mode (`StartsWith` is the declared default argument). -/
def TagCriterion.make (tag : String) (matchMode : TagMatchMode) : Criterion :=
  .tag (strToLower tag) matchMode

/-- criterion.ts `PathCriterion.getTargetValue`: backslashes normalized to
forward slashes (`file.path.replace(/\\/g, '/')`). -/
def normalizeSeparators (p : String) : String :=
  String.mk (p.data.map (fun c => if c = '\\' then '/' else c))

/-- criterion.ts `PatternCriterion.evaluate`: dispatch on the match mode;
`Contains` is a case-insensitive substring test. -/
def patternEvaluate (eng : RegexEngine) (geng : GlobEngine) (pattern : String)
    (matchMode : TextMatchMode) (value : String) : Bool :=
  match matchMode with
  | .Regex => safeRegexTest eng pattern value
  | .Glob => matchesGlobPatterns geng pattern value
  | .Contains => strIncludes (strToLower value) (strToLower pattern)

/-- criterion.ts `Criterion.evaluate` for each subclass.  The result is an
`Except`: `.error ()` models a JavaScript exception escaping `evaluate` —
which only the `FrontmatterCriterion` can raise, since its
`new RegExp(`^value$`, 'i')` call has no surrounding try/catch, while every
other regex use goes through `safeRegexTest` and every glob use catches
per-line.  `And`/`Or` iterate their children in order and short-circuit. -/
def evaluate (eng : RegexEngine) (geng : GlobEngine) (file : TFile) (content : String)
    (metadata : CachedMetadata) : Criterion → Except Unit Bool
  | .tag t mode => .ok ((getAllTagsFromFile file content metadata).any fun tg =>
      let normalizedTag := strToLower tg
      match mode with
      | .Equals => normalizedTag == t
      | .StartsWith => normalizedTag == t || strStartsWith normalizedTag (t ++ "/")
      | .Includes => (strSplit normalizedTag '/').contains t)
  | .frontmatter key value =>
      match lookupFrontmatter metadata key with
      | none => .ok false
      | some v =>
          if eng.valid ("^" ++ value ++ "$") then
            .ok (eng.test ("^" ++ value ++ "$") (stringifyValue v))
          else .error ()
  | .content r => .ok (safeRegexTest eng r content)
  | .title p mode => .ok (patternEvaluate eng geng p mode file.basename)
  | .path p mode => .ok (patternEvaluate eng geng p mode (normalizeSeparators file.path))
  | .and [] => .ok true
  | .and (c :: cs) =>
      match evaluate eng geng file content metadata c with
      | .error e => .error e
      | .ok b => if b then evaluate eng geng file content metadata (.and cs) else .ok false
  | .or [] => .ok false
  | .or (c :: cs) =>
      match evaluate eng geng file content metadata c with
      | .error e => .error e
      | .ok b => if b then .ok true else evaluate eng geng file content metadata (.or cs)
  | .not c =>
      match evaluate eng geng file content metadata c with
      | .error e => .error e
      | .ok b => .ok !b

/-- The plain serialized form (`SerializedCriterion`): a tagged record per
node holding exactly the fields the subclass's `serialize` writes.  Note
`TagCriterion.serialize` writes only `\x7b type, tag \x7d` — no `matchMode`
field exists in the serialized form of a Tag node. -/
inductive SData where
  | tag (tag : String)
  | frontmatter (key : String) (value : String)
  | content (regex : String)
  | title (pattern : String) (matchMode : TextMatchMode)
  | path (pattern : String) (matchMode : TextMatchMode)
  | and (criteria : List SData)
  | or (criteria : List SData)
  | not (criterion : SData)
deriving Repr

mutual

/-- The `serialize` methods of the criterion subclasses. -/
def serialize : Criterion → SData
  | .tag t _ => .tag t
  | .frontmatter k v => .frontmatter k v
  | .content r => .content r
  | .title p m => .title p m
  | .path p m => .path p m
  | .and cs => .and (serializeList cs)
  | .or cs => .or (serializeList cs)
  | .not c => .not (serialize c)

/-- The children serialization `criteria.map(c => c.serialize())`. -/
def serializeList : List Criterion → List SData
  | [] => []
  | c :: cs => serialize c :: serializeList cs

end

mutual

/-- The `deserialize` dispatch plus the per-subclass `deserialize` methods.
`TagCriterion.deserialize` calls `new TagCriterion(data.tag)`, so the match
mode comes from the constructor's default, `StartsWith`. -/
def deserialize : SData → Criterion
  | .tag t => TagCriterion.make t .StartsWith
  | .frontmatter k v => .frontmatter k v
  | .content r => .content r
  | .title p m => .title p m
  | .path p m => .path p m
  | .and cs => .and (deserializeList cs)
  | .or cs => .or (deserializeList cs)
  | .not c => .not (deserialize c)

/-- The children deserialization
`(data.criteria as SerializedCriterion[]).map(c => Criterion.deserialize(c))`. -/
def deserializeList : List SData → List Criterion
  | [] => []
  | c :: cs => deserialize c :: deserializeList cs

end

/-- Characters the model regex engine treats as metacharacters. -/
def regexMeta (c : Char) : Bool :=
  c = '\\' || c = '^' || c = '$' || c = '.' || c = '|' || c = '?' || c = '*' ||
  c = '+' || c = '(' || c = ')' || c = '[' || c = ']' || c = '\x7b' || c = '\x7d'

/-- Validity part of the model of the JavaScript `RegExp` builtin, restricted
to the fragment exercised by the concrete inputs in this file: a pattern
`^lit$` with `lit` free of metacharacters compiles; every other pattern — in
particular one with an unmatched `(` such as `(` or `^($`, on which the real
engine throws a `SyntaxError` — does not. -/
def modelRegexValid (p : String) : Bool :=
  strStartsWith p "^" && strEndsWith p "$" &&
    (strDropRight (strDrop p 1) 1).data.all (fun c => !regexMeta c)

/-- Match part of the model `RegExp` engine: `^lit$` with flag `'i'` matches
exactly the strings case-insensitively equal to `lit`. -/
def modelRegexTest (p s : String) : Bool :=
  strToLower s == strToLower (strDropRight (strDrop p 1) 1)

/-- The model `RegExp` engine. -/
def modelRegexEngine : RegexEngine := ⟨modelRegexValid, modelRegexTest⟩

/-- Validity part of the model of picomatch with options
`\x7b dot: true, contains: true \x7d`, restricted to the two glob patterns
exercised in this file. -/
def modelGlobValid (g : String) : Bool := g == "**/*.md" || g == "_*"

/-- Match part of the model glob engine.  With `contains: true` the compiled
matcher is unanchored, so `**/*.md` (whose leading globstar segment is
optional) matches exactly the strings containing `.md`, and `_*` matches
exactly the strings containing `_`. -/
def modelGlobTest (g s : String) : Bool :=
  if g == "**/*.md" then strIncludes s ".md"
  else if g == "_*" then strIncludes s "_"
  else false

/-- The model glob engine. -/
def modelGlobEngine : GlobEngine := ⟨modelGlobValid, modelGlobTest⟩

/-! Publishing service (publishing-service.ts). -/

/-- publishing-service.ts `FileUpdateStatus`. -/
inductive FileUpdateStatus where
  | New
  | Modified
  | Unmodified
  | Deleted
deriving Repr, DecidableEq

/-- publishing-service.ts `PublishingService.getFileStatus`: `destStat` is
the result of `fs.stat(destPath)` — `none` when it throws (the destination
file does not exist), `some destMtime` (milliseconds) otherwise; `srcMtime`
is the Obsidian source file's `stat.mtime` in milliseconds. -/
def getFileStatus (srcMtime : Nat) (destStat : Option Nat) : FileUpdateStatus :=
  match destStat with
  | none => .New
  | some destMtime => if srcMtime > destMtime then .Modified else .Unmodified

/-- One destination-filesystem operation performed by `updateFilesInRepo`. -/
inductive FsOp where
  | delete (path : String)
  | copy (path : String)
deriving Repr, DecidableEq

/-- Whether an operation is a deletion. -/
def FsOp.isDelete : FsOp → Bool
  | .delete _ => true
  | .copy _ => false

/-- Whether an operation is a copy. -/
def FsOp.isCopy : FsOp → Bool
  | .delete _ => false
  | .copy _ => true

/-- publishing-service.ts `cleanupRepo`: the published markdown paths not in
the publishable set, deleted in scan order. -/
def cleanupDeletes (publishablePaths publishedPaths : List String) : List String :=
  publishedPaths.filter (fun p => !publishablePaths.contains p)

/-- publishing-service.ts `updateFilesInRepo`: `await cleanupRepo(files)`
followed by `await copyFilesToRepo(files)` — the operation trace is all
deletions of the cleanup, in order, followed by all candidate copies, in
order.  `publishedPaths` is the scan result `getPublishedMarkdownFiles()`
obtained inside `cleanupRepo`. -/
def updateFilesInRepoTrace (publishablePaths publishedPaths : List String) : List FsOp :=
  (cleanupDeletes publishablePaths publishedPaths).map FsOp.delete
    ++ publishablePaths.map FsOp.copy

mutual

/-- One entry of a destination directory, as seen by `fs.readdir` with
`withFileTypes`.  A directory carries a `readable` flag: `false` models a
directory on which `fs.readdir` throws during the recursive scan. -/
inductive FsNode where
  | file (name : String)
  | dir (name : String) (readable : Bool) (entries : FsEntries)

/-- The ordered entries of a directory, as returned by `fs.readdir`. -/
inductive FsEntries where
  | nil
  | cons (head : FsNode) (tail : FsEntries)

end

/-- The destination repository root: its readability and entries. -/
structure RepoTree where
  readable : Bool
  entries : FsEntries

mutual

/-- One iteration of the entry loop of publishing-service.ts
`scanDirectory`: a directory not starting with a dot is recursed into
(`fs.readdir` throwing there is the error case, which carries the content of
the shared `publishedFiles` array at the moment of the throw); otherwise a
file ending in `.md` has its relative path pushed. -/
def scanNode : FsNode → String → List String → Except (List String) (List String)
  | .file name, relDir, acc =>
      .ok (if strEndsWith name ".md" then acc ++ [relDir ++ name] else acc)
  | .dir name readable entries, relDir, acc =>
      if strStartsWith name "." then .ok acc
      else if readable then scanEntries entries (relDir ++ name ++ "/") acc
      else .error acc

/-- publishing-service.ts `scanDirectory`: walk the entries in order; a
thrown filesystem error propagates out, aborting the rest of the walk. -/
def scanEntries : FsEntries → String → List String → Except (List String) (List String)
  | .nil, _, acc => .ok acc
  | .cons head tail, relDir, acc =>
      match scanNode head relDir acc with
      | .ok acc2 => scanEntries tail relDir acc2
      | .error e => .error e

end

/-- publishing-service.ts `getPublishedMarkdownFiles`: run the recursive scan
from the repo root inside a try/catch; the catch logs and returns the empty
array. -/
def getPublishedMarkdownFiles (repo : RepoTree) : List String :=
  if repo.readable then
    match scanEntries repo.entries "" [] with
    | .ok files => files
    | .error _ => []
  else []

/-- Whether the recursive scan of the destination tree hits a filesystem
error. -/
def scanFailed (repo : RepoTree) : Bool :=
  if repo.readable then
    match scanEntries repo.entries "" [] with
    | .ok _ => false
    | .error _ => true
  else true

/-- Modelled from the spec: the relative paths the scan has collected before
a failure (the spec's "returns what was collected so far rather than
raising") — on a successful scan, all collected paths.  This is the
spec-side description of `getPublishedMarkdownFiles`' return value, to be
compared with the code's. -/
def collectedBeforeFailure (repo : RepoTree) : List String :=
  if repo.readable then
    match scanEntries repo.entries "" [] with
    | .ok files => files
    | .error collected => collected
  else []

/-! Helper lemmas shared by the claim theorems. -/

theorem safeRegexTest_invalid (eng : RegexEngine) (p s : String)
    (h : eng.valid p = false) : safeRegexTest eng p s = false := by
  simp [safeRegexTest, h]

theorem frontmatter_eval_absent (eng : RegexEngine) (geng : GlobEngine) (file : TFile)
    (content : String) (metadata : CachedMetadata) (k v : String)
    (h : lookupFrontmatter metadata k = none) :
    evaluate eng geng file content metadata (.frontmatter k v) = .ok false := by
  simp [evaluate, h]

theorem frontmatter_eval_present (eng : RegexEngine) (geng : GlobEngine) (file : TFile)
    (content : String) (metadata : CachedMetadata) (k v : String) (fmv : FmValue)
    (h : lookupFrontmatter metadata k = some fmv)
    (hv : eng.valid ("^" ++ v ++ "$") = true) :
    evaluate eng geng file content metadata (.frontmatter k v) =
      .ok (eng.test ("^" ++ v ++ "$") (stringifyValue fmv)) := by
  simp [evaluate, h, hv]

theorem frontmatter_eval_invalid (eng : RegexEngine) (geng : GlobEngine) (file : TFile)
    (content : String) (metadata : CachedMetadata) (k v : String) (fmv : FmValue)
    (h : lookupFrontmatter metadata k = some fmv)
    (hv : eng.valid ("^" ++ v ++ "$") = false) :
    evaluate eng geng file content metadata (.frontmatter k v) = .error () := by
  simp [evaluate, h, hv]

/-! Claim theorems. -/

/-- C5: the status computed against the destination is exactly `New` when the
destination file does not exist (the `fs.stat` call throws), `Modified` when
the source modification time is strictly greater than the destination's, and
`Unmodified` otherwise (destination mtime equal to or later than the
source's). -/
theorem getFileStatus_classification (srcMtime : Nat) :
    getFileStatus srcMtime none = .New ∧
    (∀ destMtime : Nat, srcMtime > destMtime →
      getFileStatus srcMtime (some destMtime) = .Modified) ∧
    (∀ destMtime : Nat, destMtime ≥ srcMtime →
      getFileStatus srcMtime (some destMtime) = .Unmodified) := by
  refine ⟨rfl, ?_, ?_⟩ <;> intro d h <;> simp [getFileStatus] <;> omega

/-- Witness for C5 at source mtime 5 and destination mtimes 3 and 7. -/
theorem getFileStatus_classification_witness :
    getFileStatus 5 none = .New ∧
    (5 > 3 ∧ getFileStatus 5 (some 3) = .Modified) ∧
    (7 ≥ 5 ∧ getFileStatus 5 (some 7) = .Unmodified) :=
  ⟨(getFileStatus_classification 5).1,
   ⟨by decide, (getFileStatus_classification 5).2.1 3 (by decide)⟩,
   ⟨by decide, (getFileStatus_classification 5).2.2 7 (by decide)⟩⟩

/-- C1: the serialization round-trip does not preserve evaluation for a Tag
criterion whose match mode is not the default.  `TagCriterion.serialize`
writes only the `tag` field, and `TagCriterion.deserialize` rebuilds the node
with the constructor's default mode `StartsWith`; on a Tag criterion
configured with mode `Includes` and a file tagged `x/public`, evaluation
flips from `true` to `false` across the round-trip. -/
theorem tag_serialize_drops_matchMode :
    serialize (TagCriterion.make "public" .Includes) = SData.tag "public" ∧
    deserialize (serialize (TagCriterion.make "public" .Includes)) =
      TagCriterion.make "public" .StartsWith ∧
    evaluate modelRegexEngine modelGlobEngine ⟨"note", "note.md"⟩ ""
      ⟨some [("tags", .list [.str "x/public"])]⟩
      (TagCriterion.make "public" .Includes) = .ok true ∧
    evaluate modelRegexEngine modelGlobEngine ⟨"note", "note.md"⟩ ""
      ⟨some [("tags", .list [.str "x/public"])]⟩
      (deserialize (serialize (TagCriterion.make "public" .Includes))) = .ok false := by
  refine ⟨?_, ?_, ?_, ?_⟩
  · simp only [TagCriterion.make, serialize]
    congr 1
  · simp only [TagCriterion.make, serialize, deserialize]
    congr 1
  · simp only [evaluate, TagCriterion.make]
    decide
  · simp only [serialize, deserialize, evaluate, TagCriterion.make]
    decide

/-- C7 counterexample: on a destination tree holding `a.md`, then an
unreadable directory, then `b.md`, the scan fails after collecting `a.md`;
the code's `getPublishedMarkdownFiles` returns the empty list, not the
collected-so-far list `[a.md]` the claim promises. -/
theorem scan_failure_discards_collected :
    getPublishedMarkdownFiles
      ⟨true, .cons (.file "a.md") (.cons (.dir "broken" false .nil)
        (.cons (.file "b.md") .nil))⟩ = [] ∧
    collectedBeforeFailure
      ⟨true, .cons (.file "a.md") (.cons (.dir "broken" false .nil)
        (.cons (.file "b.md") .nil))⟩ = ["a.md"] ∧
    ([] : List String) ≠ ["a.md"] := by
  refine ⟨by decide, by decide, by decide⟩

/-- C7 amended: when an error occurs while scanning the destination tree, the
scan does not raise, but it returns the empty list — discarding even the
relative paths collected before the failure. -/
theorem scan_failure_returns_empty (repo : RepoTree) (h : scanFailed repo = true) :
    getPublishedMarkdownFiles repo = [] := by
  unfold scanFailed at h
  unfold getPublishedMarkdownFiles
  by_cases hr : repo.readable = true
  · simp only [hr, if_true] at h ⊢
    cases hs : scanEntries repo.entries "" [] with
    | ok files => rw [hs] at h; simp at h
    | error collected => rfl
  · simp only [Bool.not_eq_true] at hr
    simp [hr]

/-- Witness for C7's amended theorem at the concrete failing tree. -/
theorem scan_failure_returns_empty_witness :
    scanFailed ⟨true, .cons (.file "a.md") (.cons (.dir "broken" false .nil)
      (.cons (.file "b.md") .nil))⟩ = true ∧
    getPublishedMarkdownFiles
      ⟨true, .cons (.file "a.md") (.cons (.dir "broken" false .nil)
        (.cons (.file "b.md") .nil))⟩ = [] :=
  ⟨by decide, scan_failure_returns_empty _ (by decide)⟩

/-- C2 counterexample: the claim fails for the Frontmatter criterion.  With
the key present and the configured value `(` — so that the compiled pattern
`^($` is an invalid regular expression — `FrontmatterCriterion.evaluate`
compiles the pattern with no surrounding try/catch and the compile error
escapes to the caller instead of yielding `false`. -/
theorem frontmatter_invalid_regex_throws :
    evaluate modelRegexEngine modelGlobEngine ⟨"n", "n.md"⟩ ""
      ⟨some [("status", .str "x")]⟩ (.frontmatter "status" "(") = .error () := by
  simp only [evaluate]
  decide

/-- C2 amended: an invalid pattern is caught and treated as no match for the
criteria that go through `safeRegexTest` — Title and Path in Regex mode, and
Content — but the Frontmatter criterion compiles its anchored value pattern
without a guard and propagates the compile error to the caller. -/
theorem invalid_regex_fails_closed_except_frontmatter (eng : RegexEngine)
    (geng : GlobEngine) (file : TFile) (content : String) (metadata : CachedMetadata)
    (p : String) (h : eng.valid p = false) :
    (∀ s, safeRegexTest eng p s = false) ∧
    evaluate eng geng file content metadata (.title p .Regex) = .ok false ∧
    evaluate eng geng file content metadata (.path p .Regex) = .ok false ∧
    evaluate eng geng file content metadata (.content p) = .ok false ∧
    (∀ (k : String) (fmv : FmValue), lookupFrontmatter metadata k = some fmv →
      eng.valid ("^" ++ p ++ "$") = false →
      evaluate eng geng file content metadata (.frontmatter k p) = .error ()) := by
  refine ⟨fun s => safeRegexTest_invalid eng p s h, ?_, ?_, ?_,
    fun k fmv hk hv => frontmatter_eval_invalid eng geng file content metadata k p fmv hk hv⟩
  all_goals simp [evaluate, patternEvaluate, safeRegexTest_invalid _ _ _ h]

/-- Witness for C2's amended theorem: the pattern `(` is invalid for the
model engine (as it is for the JavaScript one). -/
theorem invalid_regex_fails_closed_except_frontmatter_witness :
    modelRegexEngine.valid "(" = false ∧
    safeRegexTest modelRegexEngine "(" "abc" = false ∧
    evaluate modelRegexEngine modelGlobEngine ⟨"n", "n.md"⟩ "body"
      ⟨some [("k", .str "x")]⟩ (.title "(" .Regex) = .ok false ∧
    evaluate modelRegexEngine modelGlobEngine ⟨"n", "n.md"⟩ "body"
      ⟨some [("k", .str "x")]⟩ (.content "(") = .ok false ∧
    evaluate modelRegexEngine modelGlobEngine ⟨"n", "n.md"⟩ "body"
      ⟨some [("k", .str "x")]⟩ (.frontmatter "k" "(") = .error () := by
  refine ⟨by decide, ?_, ?_, ?_, ?_⟩
  · exact (invalid_regex_fails_closed_except_frontmatter modelRegexEngine modelGlobEngine
      ⟨"n", "n.md"⟩ "body" ⟨some [("k", .str "x")]⟩ "(" (by decide)).1 "abc"
  · exact (invalid_regex_fails_closed_except_frontmatter modelRegexEngine modelGlobEngine
      ⟨"n", "n.md"⟩ "body" ⟨some [("k", .str "x")]⟩ "(" (by decide)).2.1
  · exact (invalid_regex_fails_closed_except_frontmatter modelRegexEngine modelGlobEngine
      ⟨"n", "n.md"⟩ "body" ⟨some [("k", .str "x")]⟩ "(" (by decide)).2.2.2.1
  · exact (invalid_regex_fails_closed_except_frontmatter modelRegexEngine modelGlobEngine
      ⟨"n", "n.md"⟩ "body" ⟨some [("k", .str "x")]⟩ "(" (by decide)).2.2.2.2 "k"
      (.str "x") rfl (by decide)

/-- C3: a Frontmatter criterion yields `false` (not an error) when the key is
absent; otherwise the found value is stringified by `stringifyValue` and
tested against the anchored case-insensitive regex `^value$` — concretely,
key `status` with value `draft` does not match the frontmatter value
`drafted` but does match `Draft`. -/
theorem frontmatter_anchored_case_insensitive (eng : RegexEngine) (geng : GlobEngine)
    (file : TFile) (content : String) (metadata : CachedMetadata) (k v : String) :
    (lookupFrontmatter metadata k = none →
      evaluate eng geng file content metadata (.frontmatter k v) = .ok false) ∧
    (∀ fmv : FmValue, lookupFrontmatter metadata k = some fmv →
      eng.valid ("^" ++ v ++ "$") = true →
      evaluate eng geng file content metadata (.frontmatter k v) =
        .ok (eng.test ("^" ++ v ++ "$") (stringifyValue fmv))) ∧
    evaluate modelRegexEngine modelGlobEngine ⟨"n", "n.md"⟩ ""
      ⟨some [("status", .str "drafted")]⟩ (.frontmatter "status" "draft") = .ok false ∧
    evaluate modelRegexEngine modelGlobEngine ⟨"n", "n.md"⟩ ""
      ⟨some [("status", .str "Draft")]⟩ (.frontmatter "status" "draft") = .ok true := by
  refine ⟨fun h => frontmatter_eval_absent eng geng file content metadata k v h,
    fun fmv h hv => frontmatter_eval_present eng geng file content metadata k v fmv h hv,
    ?_, ?_⟩
  all_goals simp only [evaluate]; decide

/-- Witness for C3 at a metadata map without the key and one with it. -/
theorem frontmatter_anchored_case_insensitive_witness :
    (lookupFrontmatter ⟨some []⟩ "status" = none ∧
      evaluate modelRegexEngine modelGlobEngine ⟨"n", "n.md"⟩ "" ⟨some []⟩
        (.frontmatter "status" "draft") = .ok false) ∧
    (lookupFrontmatter ⟨some [("status", .str "Draft")]⟩ "status" = some (.str "Draft") ∧
      modelRegexEngine.valid ("^" ++ "draft" ++ "$") = true ∧
      evaluate modelRegexEngine modelGlobEngine ⟨"n", "n.md"⟩ ""
        ⟨some [("status", .str "Draft")]⟩ (.frontmatter "status" "draft") =
        .ok (modelRegexEngine.test ("^" ++ "draft" ++ "$") (stringifyValue (.str "Draft")))) :=
  ⟨⟨rfl, (frontmatter_anchored_case_insensitive modelRegexEngine modelGlobEngine
      ⟨"n", "n.md"⟩ "" ⟨some []⟩ "status" "draft").1 rfl⟩,
   ⟨rfl, by decide, (frontmatter_anchored_case_insensitive modelRegexEngine modelGlobEngine
      ⟨"n", "n.md"⟩ "" ⟨some [("status", .str "Draft")]⟩ "status" "draft").2.1
      (.str "Draft") rfl (by decide)⟩⟩

/-- C10: a `null` frontmatter value is present, not absent — only a lookup
returning `undefined` yields `false` immediately; a present value (including
`null`) is stringified (`null` JSON-stringifies to the string `null`) and
tested, so a Frontmatter criterion with value `null` evaluates `true` on a
file whose frontmatter holds the key with a `null` value. -/
theorem frontmatter_null_is_present (eng : RegexEngine) (geng : GlobEngine)
    (file : TFile) (content : String) (metadata : CachedMetadata) (k v : String) :
    (lookupFrontmatter metadata k = none →
      evaluate eng geng file content metadata (.frontmatter k v) = .ok false) ∧
    (∀ fmv : FmValue, lookupFrontmatter metadata k = some fmv →
      eng.valid ("^" ++ v ++ "$") = true →
      evaluate eng geng file content metadata (.frontmatter k v) =
        .ok (eng.test ("^" ++ v ++ "$") (stringifyValue fmv))) ∧
    stringifyValue .null = "null" ∧
    evaluate modelRegexEngine modelGlobEngine ⟨"n", "n.md"⟩ ""
      ⟨some [("published", .null)]⟩ (.frontmatter "published" "null") = .ok true := by
  refine ⟨fun h => frontmatter_eval_absent eng geng file content metadata k v h,
    fun fmv h hv => frontmatter_eval_present eng geng file content metadata k v fmv h hv,
    rfl, ?_⟩
  simp only [evaluate]; decide

/-- Witness for C10 at a frontmatter map holding the key with a null value. -/
theorem frontmatter_null_is_present_witness :
    (lookupFrontmatter ⟨none⟩ "published" = none ∧
      evaluate modelRegexEngine modelGlobEngine ⟨"n", "n.md"⟩ "" ⟨none⟩
        (.frontmatter "published" "null") = .ok false) ∧
    (lookupFrontmatter ⟨some [("published", .null)]⟩ "published" = some .null ∧
      modelRegexEngine.valid ("^" ++ "null" ++ "$") = true ∧
      evaluate modelRegexEngine modelGlobEngine ⟨"n", "n.md"⟩ ""
        ⟨some [("published", .null)]⟩ (.frontmatter "published" "null") =
        .ok (modelRegexEngine.test ("^" ++ "null" ++ "$") (stringifyValue .null))) :=
  ⟨⟨rfl, (frontmatter_null_is_present modelRegexEngine modelGlobEngine
      ⟨"n", "n.md"⟩ "" ⟨none⟩ "published" "null").1 rfl⟩,
   ⟨rfl, by decide, (frontmatter_null_is_present modelRegexEngine modelGlobEngine
      ⟨"n", "n.md"⟩ "" ⟨some [("published", .null)]⟩ "published" "null").2.1
      .null rfl (by decide)⟩⟩

/-- The contribution of one raw line of a glob pattern list to the running
`matched` flag: `none` when the line is blank, a comment, an invalid glob, or
does not match the input (running state unchanged); `some (!negated)` when
the line's glob matches the input. -/
def lineVerdict (geng : GlobEngine) (input rawLine : String) : Option Bool :=
  let info := parseGlobLine rawLine
  if info.glob.length = 0 then none
  else if geng.valid info.glob then
    if geng.test info.glob input then some (!info.negated) else none
  else none

theorem foldl_overwrite {α : Type} (v : α → Option Bool) (ls : List α) (init : Bool) :
    ls.foldl (fun m l => (v l).getD m) init = ((ls.filterMap v).getLast?).getD init := by
  induction ls generalizing init with
  | nil => rfl
  | cons l ls ih =>
    simp only [List.foldl_cons]
    rw [ih]
    cases hv : v l with
    | none => simp [List.filterMap_cons, hv]
    | some b =>
      simp only [List.filterMap_cons, hv]
      cases hls : ls.filterMap v with
      | nil => simp [hls]
      | cons x xs =>
        cases hlast : (x :: xs).getLast? with
        | none => rw [List.getLast?_eq_none_iff] at hlast; exact absurd hlast (by simp)
        | some y => simp [hlast]

theorem matchesGlobPatterns_eq_foldl (geng : GlobEngine) (multi input : String) :
    matchesGlobPatterns geng multi input =
      (strSplit multi '\n').foldl (fun m l => (lineVerdict geng input l).getD m) false := by
  unfold matchesGlobPatterns
  congr 1
  funext m l
  simp only [lineVerdict]
  by_cases h1 : (parseGlobLine l).glob.length = 0
  · simp [h1]
  · by_cases h2 : geng.valid (parseGlobLine l).glob
    · by_cases h3 : geng.test (parseGlobLine l).glob input
      · simp [h1, h2, h3]
      · simp [h1, h2, h3]
    · simp [h1, h2]

/-- C4: the glob-list matcher follows last-match-wins semantics — the result
equals the verdict of the last line contributing one, where blank lines,
`#` comments, invalid globs and non-matching lines contribute nothing and a
matching line contributes the negation flag's inverse; an empty pattern list
yields `false`; concretely, the list of `**/*.md` followed by `!_*` does not
match `_draft.md` (the negated line matches last) but matches
`notes/post.md`. -/
theorem globList_last_match_wins :
    (∀ (geng : GlobEngine) (multi input : String),
      matchesGlobPatterns geng multi input =
        (((strSplit multi '\n').filterMap (lineVerdict geng input)).getLast?).getD false) ∧
    (∀ (geng : GlobEngine) (input : String), matchesGlobPatterns geng "" input = false) ∧
    (∀ (geng : GlobEngine) (input rawLine : String),
      (parseGlobLine rawLine).glob.length = 0 ∨
        geng.valid (parseGlobLine rawLine).glob = false →
      lineVerdict geng input rawLine = none) ∧
    matchesGlobPatterns modelGlobEngine "**/*.md\n!_*" "_draft.md" = false ∧
    matchesGlobPatterns modelGlobEngine "**/*.md\n!_*" "notes/post.md" = true := by
  refine ⟨?_, ?_, ?_, by decide, by decide⟩
  · intro geng multi input
    rw [matchesGlobPatterns_eq_foldl, foldl_overwrite]
  · intro geng input
    rfl
  · intro geng input rawLine h
    unfold lineVerdict
    rcases h with h | h
    · simp [h]
    · by_cases h1 : (parseGlobLine rawLine).glob.length = 0
      · simp [h1]
      · simp [h1, h]

/-- Witness for C4's skipped-lines conjunct at a comment line. -/
theorem globList_last_match_wins_witness :
    ((parseGlobLine "# a comment").glob.length = 0 ∨
      modelGlobEngine.valid (parseGlobLine "# a comment").glob = false) ∧
    lineVerdict modelGlobEngine "notes/post.md" "# a comment" = none :=
  ⟨Or.inl (by decide),
   globList_last_match_wins.2.2.1 modelGlobEngine "notes/post.md" "# a comment"
     (Or.inl (by decide))⟩

/-- C6: in the reconciliation trace of `updateFilesInRepo` — which awaits
`cleanupRepo` before `copyFilesToRepo` — every deletion of a destination
markdown file not in the candidate set is ordered strictly before every
candidate copy: no copy operation precedes a delete operation of the same
run. -/
theorem deletes_before_copies (publishablePaths publishedPaths : List String)
    (i j : Nat)
    (hi : i < (updateFilesInRepoTrace publishablePaths publishedPaths).length)
    (hj : j < (updateFilesInRepoTrace publishablePaths publishedPaths).length)
    (hdel : (updateFilesInRepoTrace publishablePaths publishedPaths)[i].isDelete = true)
    (hcopy : (updateFilesInRepoTrace publishablePaths publishedPaths)[j].isCopy = true) :
    i < j := by
  unfold updateFilesInRepoTrace at hi hj hdel hcopy
  have hi' : i < ((cleanupDeletes publishablePaths publishedPaths).map FsOp.delete).length := by
    by_contra hcon
    push_neg at hcon
    rw [List.getElem_append_right hcon] at hdel
    simp [List.getElem_map, FsOp.isDelete] at hdel
  have hj' : ((cleanupDeletes publishablePaths publishedPaths).map FsOp.delete).length ≤ j := by
    by_contra hcon
    push_neg at hcon
    rw [List.getElem_append_left hcon] at hcopy
    simp [List.getElem_map, FsOp.isCopy] at hcopy
  omega

/-- Witness for C6 at one candidate file and one stale published file: the
trace is the deletion of `b.md` followed by the copy of `a.md`. -/
theorem deletes_before_copies_witness :
    0 < (updateFilesInRepoTrace ["a.md"] ["b.md"]).length ∧
    1 < (updateFilesInRepoTrace ["a.md"] ["b.md"]).length ∧
    (updateFilesInRepoTrace ["a.md"] ["b.md"])[0].isDelete = true ∧
    (updateFilesInRepoTrace ["a.md"] ["b.md"])[1].isCopy = true ∧
    (0 : Nat) < 1 :=
  ⟨by decide, by decide, by decide, by decide,
   deletes_before_copies ["a.md"] ["b.md"] 0 1 (by decide) (by decide)
     (by decide) (by decide)⟩

/-- C8: a Tag criterion with mode `StartsWith` evaluates true exactly when
some extracted tag of the file, lowercased, equals the lowercased configured
tag or begins with it followed by a slash; concretely, configured tag
`public` matches files tagged `public` and `public/blog` but not a file
tagged only `publicly`. -/
theorem tag_startsWith_hierarchical :
    (∀ (t : String) (eng : RegexEngine) (geng : GlobEngine) (file : TFile)
       (content : String) (metadata : CachedMetadata),
      evaluate eng geng file content metadata (TagCriterion.make t .StartsWith) = .ok true ↔
        ∃ tg ∈ getAllTagsFromFile file content metadata,
          strToLower tg = strToLower t ∨
            strStartsWith (strToLower tg) (strToLower t ++ "/") = true) ∧
    evaluate modelRegexEngine modelGlobEngine ⟨"n", "n.md"⟩ ""
      ⟨some [("tags", .str "public")]⟩ (TagCriterion.make "public" .StartsWith) = .ok true ∧
    evaluate modelRegexEngine modelGlobEngine ⟨"n", "n.md"⟩ ""
      ⟨some [("tags", .str "public/blog")]⟩
      (TagCriterion.make "public" .StartsWith) = .ok true ∧
    evaluate modelRegexEngine modelGlobEngine ⟨"n", "n.md"⟩ ""
      ⟨some [("tags", .str "publicly")]⟩
      (TagCriterion.make "public" .StartsWith) = .ok false := by
  refine ⟨?_, ?_, ?_, ?_⟩
  · intro t eng geng file content metadata
    simp [evaluate, TagCriterion.make, List.any_eq_true, Bool.or_eq_true, beq_iff_eq]
  all_goals simp only [evaluate, TagCriterion.make]; decide

/-- C9: an And criterion with no children evaluates true and an Or criterion
with no children evaluates false; composite evaluation short-circuits left to
right — And stops at its first false child and Or at its first true child,
regardless of the children after it. -/
theorem and_or_vacuous_short_circuit (eng : RegexEngine) (geng : GlobEngine)
    (file : TFile) (content : String) (metadata : CachedMetadata) :
    evaluate eng geng file content metadata (.and []) = .ok true ∧
    evaluate eng geng file content metadata (.or []) = .ok false ∧
    (∀ (ds : List Criterion) (c : Criterion) (cs : List Criterion),
      (∀ d ∈ ds, evaluate eng geng file content metadata d = .ok true) →
      evaluate eng geng file content metadata c = .ok false →
      evaluate eng geng file content metadata (.and (ds ++ c :: cs)) = .ok false) ∧
    (∀ (ds : List Criterion) (c : Criterion) (cs : List Criterion),
      (∀ d ∈ ds, evaluate eng geng file content metadata d = .ok false) →
      evaluate eng geng file content metadata c = .ok true →
      evaluate eng geng file content metadata (.or (ds ++ c :: cs)) = .ok true) := by
  refine ⟨by simp [evaluate], by simp [evaluate], ?_, ?_⟩
  · intro ds c cs hds hc
    induction ds with
    | nil => simp [evaluate, hc]
    | cons d ds ih =>
      have hd : evaluate eng geng file content metadata d = .ok true :=
        hds d (by simp)
      have : evaluate eng geng file content metadata
          (.and (ds ++ c :: cs)) = .ok false :=
        ih (fun x hx => hds x (by simp [hx]))
      simp only [List.cons_append]
      simp [evaluate, hd, this]
  · intro ds c cs hds hc
    induction ds with
    | nil => simp [evaluate, hc]
    | cons d ds ih =>
      have hd : evaluate eng geng file content metadata d = .ok false :=
        hds d (by simp)
      have : evaluate eng geng file content metadata
          (.or (ds ++ c :: cs)) = .ok true :=
        ih (fun x hx => hds x (by simp [hx]))
      simp only [List.cons_append]
      simp [evaluate, hd, this]

/-- Witness for C9's short-circuit conjuncts: the And list `[And []]` with the
false child `Or []` followed by a child that would throw (a Frontmatter
criterion with an invalid value pattern) still evaluates to `ok false`, and
dually for Or. -/
theorem and_or_vacuous_short_circuit_witness :
    (∀ d ∈ [Criterion.and []], evaluate modelRegexEngine modelGlobEngine
      ⟨"n", "n.md"⟩ "" ⟨some [("k", .str "x")]⟩ d = .ok true) ∧
    evaluate modelRegexEngine modelGlobEngine ⟨"n", "n.md"⟩ ""
      ⟨some [("k", .str "x")]⟩ (.or []) = .ok false ∧
    evaluate modelRegexEngine modelGlobEngine ⟨"n", "n.md"⟩ ""
      ⟨some [("k", .str "x")]⟩
      (.and ([Criterion.and []] ++ (Criterion.or []) :: [.frontmatter "k" "("])) = .ok false ∧
    evaluate modelRegexEngine modelGlobEngine ⟨"n", "n.md"⟩ ""
      ⟨some [("k", .str "x")]⟩
      (.or ([Criterion.or []] ++ (Criterion.and []) :: [.frontmatter "k" "("])) = .ok true := by
  refine ⟨?_, ?_, ?_, ?_⟩
  · intro d hd
    simp only [List.mem_singleton] at hd
    subst hd
    simp [evaluate]
  · simp [evaluate]
  · exact (and_or_vacuous_short_circuit modelRegexEngine modelGlobEngine
      ⟨"n", "n.md"⟩ "" ⟨some [("k", .str "x")]⟩).2.2.1 [Criterion.and []] (.or [])
      [.frontmatter "k" "("]
      (by intro d hd; simp only [List.mem_singleton] at hd; subst hd; simp [evaluate])
      (by simp [evaluate])
  · exact (and_or_vacuous_short_circuit modelRegexEngine modelGlobEngine
      ⟨"n", "n.md"⟩ "" ⟨some [("k", .str "x")]⟩).2.2.2 [Criterion.or []] (.and [])
      [.frontmatter "k" "("]
      (by intro d hd; simp only [List.mem_singleton] at hd; subst hd; simp [evaluate])
      (by simp [evaluate])

end SelectivePublisher
